import Mathlib

/-!
Shallow embedding of the ComfyUI-MimicMotionWrapper node code (`nodes.py`)
and proofs about its pose-alignment core.

The pose extractor (`MimicMotionGetPoses.process`, nodes.py lines 202-280)
detects keypoints on a reference image and on every driving frame, fits a
per-axis affine map from pooled driving keypoints onto the reference
keypoints, reprojects every frame's body / hand / face points through the
map, and renders skeleton images.  The detector and the renderer are
external collaborators; they enter the embedding as plain data
(detection results attached to the frames) and as an opaque drawing
function.  Machine floats are modelled by `ℚ`.
-/

namespace MimicMotion

/-- A 2D keypoint, column order `(x, y)` as in the numpy arrays. -/
structure Point where
  x : ℚ
  y : ℚ
deriving DecidableEq, Repr

/-- The `bodies` part of one detector result: `candidate` is the flat
`(people·18) × 2` keypoint array, `score` the `people × 18` confidence
array. -/
structure Bodies where
  candidate : List Point
  score : List (List ℚ)
deriving DecidableEq, Repr

/-- One detector result (`dwprocessor(image)`): bodies with confidences,
plus face and hand point groups. -/
structure Pose where
  bodies : Bodies
  faces : List (List Point)
  hands : List (List Point)
deriving DecidableEq, Repr

/-- One driving frame: its image height and width (`img_np.shape`) and the
detector result on it (`dwprocessor(img_np)`). -/
structure Frame where
  height : ℚ
  width : ℚ
  pose : Pose
deriving DecidableEq, Repr

/-- Placeholder frame for `List.headD`; never inspected on the reachable
paths (the code reads `pose_images_np[0].shape` only after `np.stack`
succeeded, which forces the frame list to be nonempty). -/
def dummyFrame : Frame := ⟨0, 0, ⟨⟨[], []⟩, [], []⟩⟩

/-- nodes.py line 239: the fixed canonical list of stable body-landmark
indices. -/
def ref_keypoint_id_base : List ℕ := [0, 1, 2, 5, 8, 11, 14, 15, 16, 17]

/-- nodes.py line 241: the filter condition
`ref_pose['bodies']['score'].shape[0] > 0 and ref_pose['bodies']['score'][0][i] > 0.3`.
The short-circuit guard on the first dimension is modelled by `&&`;
the inner access is total (`getD`) and is reached only when the guard
holds. -/
def scoreOK (s : List (List ℚ)) (i : ℕ) : Bool :=
  decide (0 < s.length) && decide ((3 : ℚ) / 10 < (s.headD []).getD i 0)

/-- nodes.py lines 239-241: the correspondence index set `I`. -/
def refKeypointId (ref : Pose) : List ℕ :=
  ref_keypoint_id_base.filter (scoreOK ref.bodies.score)

/-- Numpy fancy indexing `cand[ids]` for an index list `ids`. -/
def selectIdx (ids : List ℕ) (cand : List Point) : List Point :=
  ids.map (fun i => cand.getD i ⟨0, 0⟩)

/-- nodes.py line 242: `ref_body = ref_pose['bodies']['candidate'][ref_keypoint_id]`. -/
def refBody (ref : Pose) : List Point :=
  selectIdx (refKeypointId ref) ref.bodies.candidate

/-- nodes.py line 254: the fitting set — detector results whose body
candidate array has exactly the full canonical count of 18 rows. -/
def fittingPoses (frames : List Frame) : List Pose :=
  (frames.map Frame.pose).filter (fun p => p.bodies.candidate.length == 18)

/-- nodes.py lines 253-255: `np.stack([...])[:, ref_keypoint_id]` — the
`I`-indexed landmark subset of every complete driving detection. -/
def detectedBodies (ref : Pose) (frames : List Frame) : List (List Point) :=
  (fittingPoses frames).map (fun p => selectIdx (refKeypointId ref) p.bodies.candidate)

/-- Model of `np.polyfit(xs, ys, 1)` on nondegenerate data: the ordinary
least-squares line `(slope, intercept)` in closed form. -/
def polyfit1 (xs ys : List ℚ) : ℚ × ℚ :=
  let n : ℚ := xs.length
  let sx := xs.sum
  let sy := ys.sum
  let sxx := (xs.map fun v => v * v).sum
  let sxy := (List.zipWith (fun u v => u * v) xs ys).sum
  let d := n * sxx - sx * sx
  let a := (n * sxy - sx * sy) / d
  (a, (sy - a * sx) / n)

/-- Model of `np.mean` of a 1D array. -/
def npMean (l : List ℚ) : ℚ := l.sum / l.length

/-- Model of `np.tile(v, k)`: `k` concatenated copies of `v`. -/
def npTile (v : List ℚ) (k : ℕ) : List ℚ := (List.replicate k v).flatten

/-- The fitted alignment: `a = np.array([ax, ay])`, `b = np.array([bx, by])`
(nodes.py lines 261-262). -/
structure Params where
  a : Point
  b : Point
deriving DecidableEq, Repr

/-- Exceptions the alignment computation can raise.  `stackValueError`
models the `ValueError` numpy raises in `np.stack` on an empty list
(nodes.py line 253 with an empty fitting set); `polyfitTypeError` models
the `TypeError` numpy raises in `np.polyfit` on an empty x vector
(nodes.py line 257 with an empty correspondence set `I`). -/
inductive PoseError where
  | stackValueError
  | polyfitTypeError
deriving DecidableEq, Repr

/-- nodes.py lines 253-262 given an already-computed correspondence set
`ids` and reference subset `rb`: stack the complete detections, fit
`(ay, by)` by pooled least squares on y, derive `ax` by aspect-ratio
correction from the first driving frame's shape, and `bx` as the mean
x residual. -/
def fitFromSelection (ids : List ℕ) (rb : List Point) (refH refW : ℚ)
    (frames : List Frame) : Except PoseError Params :=
  let db := ((frames.map Frame.pose).filter
      (fun p => p.bodies.candidate.length == 18)).map
      (fun p => selectIdx ids p.bodies.candidate)
  if db.isEmpty then .error .stackValueError
  else
    let xsY := (db.map (fun fr => fr.map Point.y)).flatten
    let ysY := npTile (rb.map Point.y) db.length
    if xsY.isEmpty then .error .polyfitTypeError
    else
      let p := polyfit1 xsY ysY
      let f0 := frames.headD dummyFrame
      let ax := p.1 / (f0.height / f0.width / refH * refW)
      let bx := npMean (List.zipWith (fun rx dx => rx - dx * ax)
        (npTile (rb.map Point.x) db.length)
        ((db.map (fun fr => fr.map Point.x)).flatten))
      .ok ⟨⟨ax, p.1⟩, ⟨bx, p.2⟩⟩

/-- nodes.py lines 237-262: compute the affine alignment parameters from
the reference detection and the driving frames.  `refH`/`refW` are the
reference image's height and width (line 245). -/
def computeParams (refH refW : ℚ) (ref : Pose) (frames : List Frame) :
    Except PoseError Params :=
  fitFromSelection (refKeypointId ref) (refBody ref) refH refW frames

/-- Broadcast `point * a + b` over the last axis
(nodes.py lines 266-268). -/
def affine (a b : Point) (p : Point) : Point :=
  ⟨p.x * a.x + b.x, p.y * a.y + b.y⟩

/-- nodes.py lines 266-268: reproject one detection through the fitted
map — body candidates, faces and hands are transformed, scores are
untouched. -/
def transformPose (a b : Point) (p : Pose) : Pose :=
  { bodies := { candidate := p.bodies.candidate.map (affine a b),
                score := p.bodies.score },
    faces := p.faces.map (fun g => g.map (affine a b)),
    hands := p.hands.map (fun g => g.map (affine a b)) }

/-- nodes.py lines 263-277: the full pose-extraction output as a list of
rendered images, the (unmodified) reference rendering first, then every
driving frame's rendering in input order.  `draw` is the opaque external
renderer `draw_pose(pose, height, width, include_body, include_hand,
include_face)`. -/
def processPoses {α : Type} (draw : Pose → ℚ → ℚ → Bool → Bool → Bool → α)
    (includeBody includeHand includeFace : Bool)
    (refH refW : ℚ) (ref : Pose) (frames : List Frame) :
    Except PoseError (List α) :=
  match computeParams refH refW ref frames with
  | .error e => .error e
  | .ok pr =>
    let outs := frames.map
      (fun f => draw (transformPose pr.a pr.b f.pose) refH refW
        includeBody includeHand includeFace)
    .ok (draw ref refH refW includeBody includeHand includeFace :: outs)

/-- The pooled driving y-coordinates: `detected_bodies[:, :, 1].flatten()`
(nodes.py line 257). -/
def pooledYs (ref : Pose) (frames : List Frame) : List ℚ :=
  ((detectedBodies ref frames).map (fun fr => fr.map Point.y)).flatten

/-- The fit target: `np.tile(ref_body[:, 1], len(detected_bodies))`
(nodes.py line 257). -/
def tiledRefYs (ref : Pose) (frames : List Frame) : List ℚ :=
  npTile ((refBody ref).map Point.y) (detectedBodies ref frames).length

/-! Ordinary least squares over a list of `(x, y)` correspondence pairs:
the statistics, the closed-form line, and the squared loss it minimises. -/

/-- Sum of the x-coordinates of the pairs. -/
def sX (ps : List (ℚ × ℚ)) : ℚ := (ps.map Prod.fst).sum

/-- Sum of the y-coordinates of the pairs. -/
def sY (ps : List (ℚ × ℚ)) : ℚ := (ps.map Prod.snd).sum

/-- Sum of the squared x-coordinates. -/
def sXX (ps : List (ℚ × ℚ)) : ℚ := (ps.map fun p => p.1 * p.1).sum

/-- Sum of the products x·y. -/
def sXY (ps : List (ℚ × ℚ)) : ℚ := (ps.map fun p => p.1 * p.2).sum

/-- The determinant of the 2×2 normal-equation system; the fit is
nondegenerate iff it is nonzero. -/
def olsDenom (ps : List (ℚ × ℚ)) : ℚ :=
  (ps.length : ℚ) * sXX ps - sX ps * sX ps

/-- Closed-form least-squares slope. -/
def olsSlope (ps : List (ℚ × ℚ)) : ℚ :=
  ((ps.length : ℚ) * sXY ps - sX ps * sY ps) / olsDenom ps

/-- Closed-form least-squares intercept. -/
def olsIntercept (ps : List (ℚ × ℚ)) : ℚ :=
  (sY ps - olsSlope ps * sX ps) / (ps.length : ℚ)

/-- The pooled squared loss `Σ (a·xᵢ + b − yᵢ)²` of a candidate line. -/
def lossQ (ps : List (ℚ × ℚ)) (a b : ℚ) : ℚ :=
  (ps.map (fun p => (a * p.1 + b - p.2) ^ 2)).sum

/-! Embedding of `MimicMotionSampler.process` (nodes.py lines 145-183).
Image tensors are nested lists of rationals; the diffusion pipeline is an
opaque callable receiving the argument record below. -/

/-- A 3D image tensor (nested lists; `height × width × channel` or
`channel × height × width` depending on layout). -/
abbrev Image3 := List (List (List ℚ))

/-- Total triple indexing with default 0 (tensors are never ragged in the
source; the default only pads the model). -/
def pixAt (img : Image3) (i j k : ℕ) : ℚ := ((img.getD i []).getD j []).getD k 0

/-- Layout permutation `permute(0, 3, 1, 2)` restricted to one image:
`height × width × channel` to `channel × height × width`. -/
def permuteHWC_CHW (img : Image3) : Image3 :=
  let hN := img.length
  let wN := (img.headD []).length
  let cN := ((img.headD []).headD []).length
  (List.range cN).map fun c =>
    (List.range hN).map fun i =>
      (List.range wN).map fun j => pixAt img i j c

/-- Layout permutation `permute(0, 2, 3, 1)` restricted to one image:
`channel × height × width` to `height × width × channel`. -/
def permuteCHW_HWC (img : Image3) : Image3 :=
  let cN := img.length
  let hN := (img.headD []).length
  let wN := ((img.headD []).headD []).length
  (List.range hN).map fun i =>
    (List.range wN).map fun j =>
      (List.range cN).map fun c => pixAt img c i j

/-- Pixel normalization `x * 2 - 1` (nodes.py lines 156-157). -/
def scaleTo11 (img : Image3) : Image3 :=
  img.map (List.map (List.map (fun v => v * 2 - 1)))

/-- All pixel values of one image. -/
def imgVals (img : Image3) : List ℚ := (img.map List.flatten).flatten

/-- All pixel values of a batch of images. -/
def tensorVals (t : List Image3) : List ℚ := (t.map imgVals).flatten

/-- The argument record of the opaque `pipeline(...)` call
(nodes.py lines 162-179). -/
structure GenArgs where
  refImage : List Image3
  imagePose : List Image3
  numFrames : ℕ
  tileSize : ℕ
  tileOverlap : ℕ
  height : ℕ
  width : ℕ
  fps : ℕ
  noiseAugStrength : ℚ
  numInferenceSteps : ℕ
  seed : ℕ
  minGuidanceScale : ℚ
  maxGuidanceScale : ℚ
  decodeChunkSize : ℕ

/-- nodes.py lines 153-179: the arguments `MimicMotionSampler.process`
passes to the pipeline — inputs permuted to channel-first and scaled to
`[-1, 1]`, `num_frames = B` (the pose-sequence length), and the fixed
tiling constants. -/
def samplerArgs (refImage poseImages : List Image3) (steps : ℕ)
    (cfgMin cfgMax : ℚ) (seed fps : ℕ) (noiseAug : ℚ) : GenArgs :=
  { refImage := (refImage.map permuteHWC_CHW).map scaleTo11
    imagePose := (poseImages.map permuteHWC_CHW).map scaleTo11
    numFrames := poseImages.length
    tileSize := 16
    tileOverlap := 6
    height := (poseImages.headD []).length
    width := ((poseImages.headD []).headD []).length
    fps := fps
    noiseAugStrength := noiseAug
    numInferenceSteps := steps
    seed := seed
    minGuidanceScale := cfgMin
    maxGuidanceScale := cfgMax
    decodeChunkSize := 8 }

/-- nodes.py lines 145-183: the sampler.  The opaque pipeline `generate`
returns a `1 × num_frames × C × H × W` tensor; `squeeze(0)` is the head of
the outer list, then every frame is permuted back to
`height × width × channel` (line 180).  No reference frame is prepended. -/
def samplerProcess (generate : GenArgs → List (List Image3))
    (refImage poseImages : List Image3) (steps : ℕ) (cfgMin cfgMax : ℚ)
    (seed fps : ℕ) (noiseAug : ℚ) : List Image3 :=
  ((generate (samplerArgs refImage poseImages steps cfgMin cfgMax seed fps
    noiseAug)).headD []).map permuteCHW_HWC

/-! Embedding of `DownloadAndLoadMimicMotionModel.loadmodel`
(nodes.py lines 76-121): only the filesystem checks and fetches are
modelled; pipeline construction is opaque. -/

/-- The filesystem facts the loader consults: whether the MimicMotion
checkpoint file exists (line 84) and whether the
stable-video-diffusion base-model directory exists (line 97). -/
structure LoaderFS where
  modelFileExists : Bool
  svdDirExists : Bool
deriving DecidableEq, Repr

/-- Remote fetches the loader could perform.  The source contains a
`snapshot_download` only for the MimicMotion checkpoint (lines 86-90);
`downloadSvdBase` exists in the vocabulary to state that no code path
performs it. -/
inductive FetchAction where
  | downloadMimicWeights
  | downloadSvdBase
deriving DecidableEq, Repr

/-- The loader's failure: the `ValueError` raised at line 98 when the
stable-video-diffusion base directory is absent (the spec's
`MissingDependencyError`). -/
inductive LoadError where
  | missingSvdBase
deriving DecidableEq, Repr

/-- nodes.py lines 76-121: fetch the checkpoint if absent, then check the
base-model directory and fail if it is missing; returns the performed
fetches and the outcome. -/
def loadmodel (fs : LoaderFS) : List FetchAction × Except LoadError Unit :=
  let fetches := if fs.modelFileExists then [] else [FetchAction.downloadMimicWeights]
  if fs.svdDirExists then (fetches, .ok ()) else (fetches, .error .missingSvdBase)

/-! Concrete fixture data used by the witness theorems. -/

/-- A reference score row: canonical indices 0, 1 and 2 confident, the
rest below the 0.3 threshold. -/
def testScoreRow : List ℚ :=
  [9/10, 9/10, 9/10, 1/10, 1/10, 1/10, 1/10, 1/10, 1/10,
   1/10, 1/10, 1/10, 1/10, 1/10, 1/10, 1/10, 1/10, 1/10]

/-- A reference detection whose usable landmarks are `(0,0)`, `(1,2)`,
`(2,4)` at canonical indices 0, 1, 2. -/
def testRef : Pose :=
  ⟨⟨[⟨0, 0⟩, ⟨1, 2⟩, ⟨2, 4⟩], [testScoreRow]⟩, [], []⟩

/-- A complete (18-point) driving detection; only indices 0, 1, 2 carry
information: `(0,0)`, `(1/2,1)`, `(1,2)` — the reference at half scale. -/
def testDriveCand : List Point :=
  [⟨0, 0⟩, ⟨1/2, 1⟩, ⟨1, 2⟩] ++ List.replicate 15 ⟨0, 0⟩

/-- A 10×10 driving frame carrying `testDriveCand`. -/
def testFrame : Frame := ⟨10, 10, ⟨⟨testDriveCand, []⟩, [], []⟩⟩

/-- A reference detection with zero detected bodies: empty candidate and
empty score arrays. -/
def testRefZero : Pose := ⟨⟨[], []⟩, [], []⟩

/-- A one-pixel reference image batch for the sampler witness. -/
def testRefImage : List Image3 := [[[[1]]]]

/-- A one-frame, one-pixel pose-image batch for the sampler witness. -/
def testPoseImages : List Image3 := [[[[0]]]]

/-- A concrete stand-in for the opaque diffusion pipeline: returns a
batch of one sequence of `numFrames` constant one-pixel frames. -/
def testGenerate : GenArgs → List (List Image3) :=
  fun a => [List.replicate a.numFrames [[[(1 : ℚ) / 2]]]]

/-! ### Generic list lemmas -/

lemma getD_mem_or {α : Type} (l : List α) (i : ℕ) (d : α) :
    l.getD i d ∈ l ∨ l.getD i d = d := by
  induction l generalizing i with
  | nil => right; simp
  | cons a t ih =>
    cases i with
    | zero => left; simp
    | succ n =>
      rcases ih n with h | h
      · left; simpa using Or.inr h
      · right; simpa using h

lemma zipWith_mul_eq_map_zip (xs ys : List ℚ) :
    List.zipWith (fun u v => u * v) xs ys = (xs.zip ys).map (fun p => p.1 * p.2) := by
  induction xs generalizing ys with
  | nil => simp
  | cons x xs ih => cases ys <;> simp [ih]

/-! ### Ordinary least squares: the closed form minimises the pooled loss -/

lemma sum_resid (ps : List (ℚ × ℚ)) (a b : ℚ) :
    (ps.map fun p => a * p.1 + b - p.2).sum
      = a * sX ps + b * (ps.length : ℚ) - sY ps := by
  induction ps with
  | nil => simp [sX, sY]
  | cons q ps ih =>
    simp only [List.map_cons, List.sum_cons, sX, sY, List.length_cons] at ih ⊢
    rw [ih]
    push_cast
    ring

lemma sum_resid_x (ps : List (ℚ × ℚ)) (a b : ℚ) :
    (ps.map fun p => (a * p.1 + b - p.2) * p.1).sum
      = a * sXX ps + b * sX ps - sXY ps := by
  induction ps with
  | nil => simp [sX, sXX, sXY]
  | cons q ps ih =>
    simp only [List.map_cons, List.sum_cons, sX, sXX, sXY] at ih ⊢
    rw [ih]
    ring

lemma lossQ_expand (ps : List (ℚ × ℚ)) (a b u v : ℚ) :
    lossQ ps (a + u) (b + v) =
      lossQ ps a b
        + 2 * u * ((ps.map fun p => (a * p.1 + b - p.2) * p.1).sum)
        + 2 * v * ((ps.map fun p => a * p.1 + b - p.2).sum)
        + (ps.map fun p => (u * p.1 + v) ^ 2).sum := by
  induction ps with
  | nil => simp [lossQ]
  | cons q ps ih =>
    simp only [lossQ, List.map_cons, List.sum_cons] at ih ⊢
    rw [ih]
    ring

lemma sum_sq_nonneg (ps : List (ℚ × ℚ)) (u v : ℚ) :
    0 ≤ (ps.map fun p => (u * p.1 + v) ^ 2).sum := by
  apply List.sum_nonneg
  intro x hx
  obtain ⟨p, _, rfl⟩ := List.mem_map.mp hx
  positivity

lemma length_ne_zero_of_olsDenom (ps : List (ℚ × ℚ)) (hd : olsDenom ps ≠ 0) :
    (ps.length : ℚ) ≠ 0 := by
  intro h0
  have hnil : ps = [] := List.length_eq_zero.mp (Nat.cast_eq_zero.mp h0)
  rw [hnil] at hd
  simp [olsDenom, sX, sXX] at hd

lemma ols_slope_mul (ps : List (ℚ × ℚ)) (hd : olsDenom ps ≠ 0) :
    olsSlope ps * ((ps.length : ℚ) * sXX ps - sX ps * sX ps)
      = (ps.length : ℚ) * sXY ps - sX ps * sY ps := by
  have h : olsSlope ps * olsDenom ps
      = (ps.length : ℚ) * sXY ps - sX ps * sY ps := by
    rw [olsSlope]; exact div_mul_cancel₀ _ hd
  simpa [olsDenom] using h

lemma ols_normal_x (ps : List (ℚ × ℚ)) (hd : olsDenom ps ≠ 0) :
    olsSlope ps * sXX ps + olsIntercept ps * sX ps - sXY ps = 0 := by
  have hn := length_ne_zero_of_olsDenom ps hd
  rw [olsIntercept]
  field_simp
  linear_combination ols_slope_mul ps hd

lemma ols_normal_const (ps : List (ℚ × ℚ)) (hd : olsDenom ps ≠ 0) :
    olsSlope ps * sX ps + olsIntercept ps * (ps.length : ℚ) - sY ps = 0 := by
  have hn := length_ne_zero_of_olsDenom ps hd
  rw [olsIntercept]
  field_simp

lemma olsFit_optimal (ps : List (ℚ × ℚ)) (hd : olsDenom ps ≠ 0) (a b : ℚ) :
    lossQ ps (olsSlope ps) (olsIntercept ps) ≤ lossQ ps a b := by
  have h := lossQ_expand ps (olsSlope ps) (olsIntercept ps)
    (a - olsSlope ps) (b - olsIntercept ps)
  rw [sum_resid, sum_resid_x, ols_normal_x ps hd, ols_normal_const ps hd] at h
  have ha : olsSlope ps + (a - olsSlope ps) = a := by ring
  have hb : olsIntercept ps + (b - olsIntercept ps) = b := by ring
  rw [ha, hb] at h
  have hs := sum_sq_nonneg ps (a - olsSlope ps) (b - olsIntercept ps)
  linarith

lemma polyfit1_eq_ols (xs ys : List ℚ) (h : xs.length = ys.length) :
    polyfit1 xs ys = (olsSlope (xs.zip ys), olsIntercept (xs.zip ys)) := by
  have hfst : (xs.zip ys).map Prod.fst = xs := List.map_fst_zip xs ys (le_of_eq h)
  have hsnd : (xs.zip ys).map Prod.snd = ys := List.map_snd_zip xs ys (le_of_eq h.symm)
  have hlen : ((xs.zip ys).length : ℚ) = (xs.length : ℚ) := by
    rw [List.length_zip, h, min_self]
  have h1 : sX (xs.zip ys) = xs.sum := by rw [sX, hfst]
  have h2 : sY (xs.zip ys) = ys.sum := by rw [sY, hsnd]
  have hcomp : ((fun v : ℚ => v * v) ∘ Prod.fst) = (fun p : ℚ × ℚ => p.1 * p.1) := by
    funext p; rfl
  have h3 : sXX (xs.zip ys) = (xs.map fun v => v * v).sum := by
    rw [sXX, ← hcomp, ← List.map_map, hfst]
  have h4 : sXY (xs.zip ys) = (List.zipWith (fun u v => u * v) xs ys).sum := by
    rw [sXY, zipWith_mul_eq_map_zip]
  simp only [polyfit1, olsSlope, olsIntercept, olsDenom, h1, h2, h3, h4, hlen]

/-! ### Shape facts about the pooled fit data -/

lemma length_flatten_const {α β : Type} (l : List α) (g : α → List β) (c : ℕ)
    (h : ∀ a, (g a).length = c) : ((l.map g).flatten).length = l.length * c := by
  induction l with
  | nil => simp
  | cons a t ih =>
    rw [List.map_cons, List.flatten_cons, List.length_append, ih, h,
      List.length_cons, Nat.succ_mul, Nat.add_comm]

lemma flatten_replicate_length {α : Type} (k : ℕ) (v : List α) :
    ((List.replicate k v).flatten).length = k * v.length := by
  induction k with
  | zero => simp
  | succ n ih =>
    rw [List.replicate_succ, List.flatten_cons, List.length_append, ih,
      Nat.succ_mul, Nat.add_comm]

lemma npTile_length (v : List ℚ) (k : ℕ) : (npTile v k).length = k * v.length := by
  rw [npTile, flatten_replicate_length]

lemma pooledYs_length (ref : Pose) (frames : List Frame) :
    (pooledYs ref frames).length = (tiledRefYs ref frames).length := by
  have hc : ∀ p : Pose,
      ((fun q : Pose =>
        List.map Point.y (selectIdx (refKeypointId ref) q.bodies.candidate)) p).length
        = (refKeypointId ref).length := by
    intro p; simp [selectIdx]
  rw [pooledYs, tiledRefYs, detectedBodies, List.map_map]
  rw [show ((fun fr => List.map Point.y fr) ∘
      fun p : Pose => selectIdx (refKeypointId ref) p.bodies.candidate)
      = fun q : Pose =>
        List.map Point.y (selectIdx (refKeypointId ref) q.bodies.candidate) from rfl]
  rw [length_flatten_const _ _ _ hc, npTile_length]
  simp [refBody, selectIdx]

lemma ne_nil_of_olsDenom (xs ys : List ℚ) (hd : olsDenom (xs.zip ys) ≠ 0) :
    xs ≠ [] := by
  intro h
  rw [h] at hd
  simp [olsDenom, sX, sXX] at hd

lemma db_ne_nil (ref : Pose) (frames : List Frame)
    (h : pooledYs ref frames ≠ []) : detectedBodies ref frames ≠ [] := by
  intro h0
  apply h
  simp [pooledYs, h0]

/-- The success case of the embedded fit, with every component in closed
form. -/
lemma computeParams_ok (refH refW : ℚ) (ref : Pose) (frames : List Frame)
    (hdb : detectedBodies ref frames ≠ [])
    (hxs : pooledYs ref frames ≠ []) :
    computeParams refH refW ref frames = .ok
      ⟨⟨(polyfit1 (pooledYs ref frames) (tiledRefYs ref frames)).1 /
          ((frames.headD dummyFrame).height / (frames.headD dummyFrame).width / refH * refW),
        (polyfit1 (pooledYs ref frames) (tiledRefYs ref frames)).1⟩,
       ⟨npMean (List.zipWith (fun rx dx => rx - dx *
            ((polyfit1 (pooledYs ref frames) (tiledRefYs ref frames)).1 /
              ((frames.headD dummyFrame).height / (frames.headD dummyFrame).width / refH * refW)))
          (npTile ((refBody ref).map Point.x) (detectedBodies ref frames).length)
          (((detectedBodies ref frames).map (fun fr => fr.map Point.x)).flatten)),
        (polyfit1 (pooledYs ref frames) (tiledRefYs ref frames)).2⟩⟩ := by
  have h1 : (detectedBodies ref frames).isEmpty = false := List.isEmpty_eq_false.mpr hdb
  have h2 : (pooledYs ref frames).isEmpty = false := List.isEmpty_eq_false.mpr hxs
  simp only [computeParams, fitFromSelection]
  rw [show ((frames.map Frame.pose).filter
      (fun p => p.bodies.candidate.length == 18)).map
      (fun p => selectIdx (refKeypointId ref) p.bodies.candidate)
      = detectedBodies ref frames from rfl]
  rw [h1]
  simp only [Bool.false_eq_true, if_false]
  rw [show ((detectedBodies ref frames).map (fun fr => fr.map Point.y)).flatten
      = pooledYs ref frames from rfl]
  rw [h2]
  simp only [Bool.false_eq_true, if_false, tiledRefYs]

/-- C1: the fitting set is exactly the driving frames with a complete
(18-point) body detection, restricted to the correspondence indices `I`,
and `(ay, by)` is the ordinary least-squares degree-1 fit of the pooled
driving y-coordinates onto the reference y-coordinates tiled once per
fitting frame: it minimises the pooled squared loss. -/
theorem C1_fit_is_pooled_least_squares (refH refW : ℚ) (ref : Pose)
    (frames : List Frame)
    (hd : olsDenom ((pooledYs ref frames).zip (tiledRefYs ref frames)) ≠ 0) :
    ∃ pr : Params,
      computeParams refH refW ref frames = .ok pr ∧
      fittingPoses frames = (frames.map Frame.pose).filter
        (fun p => p.bodies.candidate.length == 18) ∧
      detectedBodies ref frames = (fittingPoses frames).map
        (fun p => selectIdx (refKeypointId ref) p.bodies.candidate) ∧
      pooledYs ref frames =
        ((detectedBodies ref frames).map (fun fr => fr.map Point.y)).flatten ∧
      tiledRefYs ref frames =
        npTile ((refBody ref).map Point.y) (detectedBodies ref frames).length ∧
      (pr.a.y, pr.b.y) = polyfit1 (pooledYs ref frames) (tiledRefYs ref frames) ∧
      ∀ a b : ℚ,
        lossQ ((pooledYs ref frames).zip (tiledRefYs ref frames)) pr.a.y pr.b.y ≤
          lossQ ((pooledYs ref frames).zip (tiledRefYs ref frames)) a b := by
  have hxs : pooledYs ref frames ≠ [] := ne_nil_of_olsDenom _ _ hd
  have hdb : detectedBodies ref frames ≠ [] := db_ne_nil ref frames hxs
  refine ⟨_, computeParams_ok refH refW ref frames hdb hxs,
    rfl, rfl, rfl, rfl, rfl, ?_⟩
  intro a b
  show lossQ _ (polyfit1 (pooledYs ref frames) (tiledRefYs ref frames)).1
      (polyfit1 (pooledYs ref frames) (tiledRefYs ref frames)).2 ≤ lossQ _ a b
  rw [polyfit1_eq_ols _ _ (pooledYs_length ref frames)]
  exact olsFit_optimal _ hd a b

/-- Witness for C1 at a concrete reference pose and a single complete
driving frame. -/
theorem C1_fit_is_pooled_least_squares_witness :
    olsDenom ((pooledYs testRef [testFrame]).zip (tiledRefYs testRef [testFrame])) ≠ 0 ∧
    (∃ pr : Params,
      computeParams 10 10 testRef [testFrame] = .ok pr ∧
      fittingPoses [testFrame] = ([testFrame].map Frame.pose).filter
        (fun p => p.bodies.candidate.length == 18) ∧
      detectedBodies testRef [testFrame] = (fittingPoses [testFrame]).map
        (fun p => selectIdx (refKeypointId testRef) p.bodies.candidate) ∧
      pooledYs testRef [testFrame] =
        ((detectedBodies testRef [testFrame]).map (fun fr => fr.map Point.y)).flatten ∧
      tiledRefYs testRef [testFrame] =
        npTile ((refBody testRef).map Point.y) (detectedBodies testRef [testFrame]).length ∧
      (pr.a.y, pr.b.y) = polyfit1 (pooledYs testRef [testFrame]) (tiledRefYs testRef [testFrame]) ∧
      ∀ a b : ℚ,
        lossQ ((pooledYs testRef [testFrame]).zip (tiledRefYs testRef [testFrame])) pr.a.y pr.b.y ≤
          lossQ ((pooledYs testRef [testFrame]).zip (tiledRefYs testRef [testFrame])) a b) :=
  ⟨by
    norm_num [olsDenom, sX, sXX, pooledYs, tiledRefYs, detectedBodies, fittingPoses,
      refKeypointId, refBody, scoreOK, ref_keypoint_id_base, selectIdx, npTile,
      testRef, testScoreRow, testFrame, testDriveCand, List.filter, List.replicate,
      List.zip, List.zipWith],
   C1_fit_is_pooled_least_squares 10 10 testRef [testFrame] (by
    norm_num [olsDenom, sX, sXX, pooledYs, tiledRefYs, detectedBodies, fittingPoses,
      refKeypointId, refBody, scoreOK, ref_keypoint_id_base, selectIdx, npTile,
      testRef, testScoreRow, testFrame, testDriveCand, List.filter, List.replicate,
      List.zip, List.zipWith])⟩

/-- C2: the correspondence set `I` is the canonical ten indices filtered
by reference confidence above 0.3 (under the zero-detection guard), has
at most 10 elements, and the very same `I` selects both the reference
subset and the subset of every driving frame in the fitting set. -/
theorem C2_correspondence_index_set (ref : Pose) (frames : List Frame) :
    refKeypointId ref = ref_keypoint_id_base.filter (scoreOK ref.bodies.score) ∧
    ref_keypoint_id_base = [0, 1, 2, 5, 8, 11, 14, 15, 16, 17] ∧
    (∀ i, i ∈ refKeypointId ref ↔ i ∈ ref_keypoint_id_base ∧
      0 < ref.bodies.score.length ∧
      (3 : ℚ) / 10 < (ref.bodies.score.headD []).getD i 0) ∧
    (refKeypointId ref).length ≤ 10 ∧
    refBody ref = selectIdx (refKeypointId ref) ref.bodies.candidate ∧
    detectedBodies ref frames = (fittingPoses frames).map
      (fun p => selectIdx (refKeypointId ref) p.bodies.candidate) := by
  refine ⟨rfl, rfl, ?_, ?_, rfl, rfl⟩
  · intro i
    simp [refKeypointId, List.mem_filter, scoreOK, and_assoc]
  · calc (refKeypointId ref).length ≤ ref_keypoint_id_base.length :=
      List.length_filter_le _ _
    _ = 10 := rfl

/-- C3: `ax` is derived from `ay` by the aspect-ratio correction computed
from the first driving frame's shape only, and `bx` is the mean of the
tiled reference x-coordinates minus `ax` times the pooled driving
x-coordinates. -/
theorem C3_ax_bx_derivation (refH refW : ℚ) (ref : Pose) (frames : List Frame)
    (hdb : detectedBodies ref frames ≠ [])
    (hxs : pooledYs ref frames ≠ []) :
    ∃ pr : Params,
      computeParams refH refW ref frames = .ok pr ∧
      pr.a.x = pr.a.y /
        ((frames.headD dummyFrame).height / (frames.headD dummyFrame).width
          / refH * refW) ∧
      pr.b.x =
        (List.zipWith (fun rx dx => rx - dx * pr.a.x)
          (npTile ((refBody ref).map Point.x) (detectedBodies ref frames).length)
          (((detectedBodies ref frames).map (fun fr => fr.map Point.x)).flatten)).sum /
        ((List.zipWith (fun rx dx => rx - dx * pr.a.x)
          (npTile ((refBody ref).map Point.x) (detectedBodies ref frames).length)
          (((detectedBodies ref frames).map (fun fr => fr.map Point.x)).flatten)).length : ℚ) :=
  ⟨_, computeParams_ok refH refW ref frames hdb hxs, rfl, rfl⟩

/-- Witness for C3 at the concrete fixture. -/
theorem C3_ax_bx_derivation_witness :
    detectedBodies testRef [testFrame] ≠ [] ∧
    pooledYs testRef [testFrame] ≠ [] ∧
    (∃ pr : Params,
      computeParams 10 10 testRef [testFrame] = .ok pr ∧
      pr.a.x = pr.a.y /
        (([testFrame].headD dummyFrame).height / ([testFrame].headD dummyFrame).width
          / 10 * 10) ∧
      pr.b.x =
        (List.zipWith (fun rx dx => rx - dx * pr.a.x)
          (npTile ((refBody testRef).map Point.x) (detectedBodies testRef [testFrame]).length)
          (((detectedBodies testRef [testFrame]).map (fun fr => fr.map Point.x)).flatten)).sum /
        ((List.zipWith (fun rx dx => rx - dx * pr.a.x)
          (npTile ((refBody testRef).map Point.x) (detectedBodies testRef [testFrame]).length)
          (((detectedBodies testRef [testFrame]).map (fun fr => fr.map Point.x)).flatten)).length : ℚ)) :=
  ⟨by
    norm_num [detectedBodies, fittingPoses, refKeypointId, scoreOK,
      ref_keypoint_id_base, selectIdx, testRef, testScoreRow, testFrame,
      testDriveCand, List.filter, List.replicate],
   by
    norm_num [pooledYs, detectedBodies, fittingPoses, refKeypointId, scoreOK,
      ref_keypoint_id_base, selectIdx, testRef, testScoreRow, testFrame,
      testDriveCand, List.filter, List.replicate]
    exact List.cons_ne_nil _ _,
   C3_ax_bx_derivation 10 10 testRef [testFrame]
    (by
      norm_num [detectedBodies, fittingPoses, refKeypointId, scoreOK,
        ref_keypoint_id_base, selectIdx, testRef, testScoreRow, testFrame,
        testDriveCand, List.filter, List.replicate])
    (by
      norm_num [pooledYs, detectedBodies, fittingPoses, refKeypointId, scoreOK,
        ref_keypoint_id_base, selectIdx, testRef, testScoreRow, testFrame,
        testDriveCand, List.filter, List.replicate]
      exact List.cons_ne_nil _ _)⟩

/-- C4: on success the affine map is applied to every driving frame's
body, hand and face keypoints — frames excluded from the fit included —
and the output sequence is the reference rendering followed by the
driving renderings in input order, of length `1 + N`. -/
theorem C4_reproject_all_frames_output_length {α : Type}
    (draw : Pose → ℚ → ℚ → Bool → Bool → Bool → α)
    (ib ihd ifc : Bool) (refH refW : ℚ) (ref : Pose) (frames : List Frame)
    (out : List α)
    (h : processPoses draw ib ihd ifc refH refW ref frames = .ok out) :
    ∃ pr : Params,
      computeParams refH refW ref frames = .ok pr ∧
      out = draw ref refH refW ib ihd ifc ::
        frames.map (fun f =>
          draw (transformPose pr.a pr.b f.pose) refH refW ib ihd ifc) ∧
      out.length = 1 + frames.length := by
  unfold processPoses at h
  cases hc : computeParams refH refW ref frames with
  | error e => rw [hc] at h; exact absurd h (by simp)
  | ok pr =>
    rw [hc] at h
    simp only [Except.ok.injEq] at h
    refine ⟨pr, rfl, h.symm, ?_⟩
    rw [← h]
    simp [Nat.add_comm]

/-- Witness for C4 at the concrete fixture with a constant renderer. -/
theorem C4_reproject_all_frames_output_length_witness :
    processPoses (fun _ _ _ _ _ _ => (0 : ℕ)) true true true 10 10 testRef
      [testFrame] = .ok [0, 0] ∧
    (∃ pr : Params,
      computeParams 10 10 testRef [testFrame] = .ok pr ∧
      ([0, 0] : List ℕ) = (fun _ _ _ _ _ _ => (0 : ℕ)) testRef 10 10 true true true ::
        [testFrame].map (fun f =>
          (fun _ _ _ _ _ _ => (0 : ℕ)) (transformPose pr.a pr.b f.pose) 10 10
            true true true) ∧
      ([0, 0] : List ℕ).length = 1 + [testFrame].length) :=
  ⟨by
    norm_num [processPoses, computeParams, fitFromSelection, refKeypointId,
      refBody, scoreOK, ref_keypoint_id_base, selectIdx, testRef, testScoreRow,
      testFrame, testDriveCand, polyfit1, npMean, npTile, List.filter,
      List.replicate, dummyFrame],
   C4_reproject_all_frames_output_length (fun _ _ _ _ _ _ => (0 : ℕ))
    true true true 10 10 testRef [testFrame] [0, 0] (by
      norm_num [processPoses, computeParams, fitFromSelection, refKeypointId,
        refBody, scoreOK, ref_keypoint_id_base, selectIdx, testRef, testScoreRow,
        testFrame, testDriveCand, polyfit1, npMean, npTile, List.filter,
        List.replicate, dummyFrame])⟩

/-- C9: the three include flags influence the rendering calls only.  With
the renderer replaced by the identity on poses the result is flag
independent, and a run with any renderer and flags is exactly the
flag-independent pose-level result post-composed with that rendering —
so the correspondence set, affine parameters and transformed keypoints
never depend on the flags. -/
theorem C9_flags_affect_rendering_only {α : Type}
    (draw : Pose → ℚ → ℚ → Bool → Bool → Bool → α)
    (b1 h1 f1 b2 h2 f2 : Bool) (refH refW : ℚ) (ref : Pose)
    (frames : List Frame) :
    processPoses (fun p _ _ _ _ _ => p) b1 h1 f1 refH refW ref frames
      = processPoses (fun p _ _ _ _ _ => p) b2 h2 f2 refH refW ref frames ∧
    processPoses draw b1 h1 f1 refH refW ref frames
      = Except.map (List.map (fun p => draw p refH refW b1 h1 f1))
          (processPoses (fun p _ _ _ _ _ => p) b2 h2 f2 refH refW ref frames) := by
  refine ⟨rfl, ?_⟩
  unfold processPoses
  cases computeParams refH refW ref frames <;>
    simp [Except.map, List.map_map, Function.comp]

/-- C7 (code behaviour at the claimed error site): with an empty driving
sequence — or more generally no driving frame carrying a complete
18-point detection — the embedded code fails with the modelled numpy
`ValueError` from `np.stack`, and no output list is produced.  The source
has no `IncompleteFittingSetError`. -/
theorem C7_empty_fitting_set_stack_error {α : Type}
    (draw : Pose → ℚ → ℚ → Bool → Bool → Bool → α)
    (ib ihd ifc : Bool) (refH refW : ℚ) (ref : Pose) (frames : List Frame)
    (h : ∀ f ∈ frames, f.pose.bodies.candidate.length ≠ 18) :
    processPoses draw ib ihd ifc refH refW ref frames
      = .error .stackValueError ∧
    computeParams refH refW ref frames = .error .stackValueError := by
  have hfit : fittingPoses frames = [] := by
    rw [fittingPoses]
    rw [List.filter_eq_nil_iff]
    intro p hp
    obtain ⟨f, hf, rfl⟩ := List.mem_map.mp hp
    simpa using h f hf
  have hc : computeParams refH refW ref frames = .error .stackValueError := by
    unfold computeParams fitFromSelection
    rw [show (frames.map Frame.pose).filter
        (fun p => p.bodies.candidate.length == 18) = fittingPoses frames from rfl,
      hfit]
    rfl
  refine ⟨?_, hc⟩
  unfold processPoses
  rw [hc]

/-- Witness for C7 at the empty driving sequence. -/
theorem C7_empty_fitting_set_stack_error_witness :
    (∀ f ∈ ([] : List Frame), f.pose.bodies.candidate.length ≠ 18) ∧
    (processPoses (fun _ _ _ _ _ _ => (0 : ℕ)) true true true 10 10 testRef []
        = .error .stackValueError ∧
      computeParams 10 10 testRef [] = .error .stackValueError) :=
  ⟨by simp,
   C7_empty_fitting_set_stack_error (fun _ _ _ _ _ _ => (0 : ℕ))
    true true true 10 10 testRef [] (by simp)⟩

/-- C10: with zero detected bodies on the reference (empty score array)
the guarded selection is total and raises nothing: `I` and the reference
subset are empty and control reaches the fitting stage (where, if some
driving frame is complete, the modelled `np.polyfit` empty-vector error
occurs — not a selection failure). -/
theorem C10_zero_bodies_selection_total (ref : Pose)
    (h : ref.bodies.score = []) :
    refKeypointId ref = [] ∧ refBody ref = [] ∧
    (∀ refH refW : ℚ, ∀ frames : List Frame,
      computeParams refH refW ref frames = fitFromSelection [] [] refH refW frames) ∧
    (∀ refH refW : ℚ, ∀ frames : List Frame,
      (∃ f ∈ frames, f.pose.bodies.candidate.length = 18) →
      computeParams refH refW ref frames = .error .polyfitTypeError) := by
  have hid : refKeypointId ref = [] := by
    rw [refKeypointId]
    rw [List.filter_eq_nil_iff]
    intro i _
    simp [scoreOK, h]
  have hrb : refBody ref = [] := by rw [refBody, hid]; rfl
  refine ⟨hid, hrb, ?_, ?_⟩
  · intro refH refW frames
    rw [computeParams, hid, hrb]
  · rintro refH refW frames ⟨f, hf, hf18⟩
    rw [computeParams, hid, hrb]
    simp only [fitFromSelection]
    have hmem : f.pose ∈ (frames.map Frame.pose).filter
        (fun p => p.bodies.candidate.length == 18) :=
      List.mem_filter.mpr ⟨List.mem_map_of_mem _ hf, by simp [hf18]⟩
    have hne : ((frames.map Frame.pose).filter
        (fun p => p.bodies.candidate.length == 18)).map
        (fun p => selectIdx ([] : List ℕ) p.bodies.candidate) ≠ [] := by
      intro h0
      rw [List.map_eq_nil_iff] at h0
      rw [h0] at hmem
      simp at hmem
    rw [List.isEmpty_eq_false.mpr hne]
    simp only [Bool.false_eq_true, if_false]
    have hflat : ((((frames.map Frame.pose).filter
        (fun p => p.bodies.candidate.length == 18)).map
        (fun p => selectIdx ([] : List ℕ) p.bodies.candidate)).map
        (fun fr => fr.map Point.y)).flatten = [] := by
      rw [List.flatten_eq_nil_iff]
      intro l hl
      simp only [List.map_map, List.mem_map] at hl
      obtain ⟨p, _, rfl⟩ := hl
      rfl
    rw [hflat]
    rfl

/-- Witness for C10 at a zero-body reference detection. -/
theorem C10_zero_bodies_selection_total_witness :
    testRefZero.bodies.score = [] ∧
    (refKeypointId testRefZero = [] ∧ refBody testRefZero = [] ∧
      (∀ refH refW : ℚ, ∀ frames : List Frame,
        computeParams refH refW testRefZero frames
          = fitFromSelection [] [] refH refW frames) ∧
      (∀ refH refW : ℚ, ∀ frames : List Frame,
        (∃ f ∈ frames, f.pose.bodies.candidate.length = 18) →
        computeParams refH refW testRefZero frames = .error .polyfitTypeError)) :=
  ⟨rfl, C10_zero_bodies_selection_total testRefZero rfl⟩

/-- C8: when the stable-video-diffusion base directory is absent the
loader fails immediately with the modelled missing-dependency error
(nodes.py line 98) and never attempts to fetch that directory. -/
theorem C8_missing_svd_immediate_failure (fs : LoaderFS)
    (h : fs.svdDirExists = false) :
    (loadmodel fs).2 = .error .missingSvdBase ∧
    FetchAction.downloadSvdBase ∉ (loadmodel fs).1 := by
  unfold loadmodel
  rw [h]
  constructor
  · simp
  · cases hm : fs.modelFileExists <;> simp

/-- Witness for C8 on a filesystem with the checkpoint but no base
directory. -/
theorem C8_missing_svd_immediate_failure_witness :
    (LoaderFS.mk true false).svdDirExists = false ∧
    ((loadmodel (LoaderFS.mk true false)).2 = .error .missingSvdBase ∧
      FetchAction.downloadSvdBase ∉ (loadmodel (LoaderFS.mk true false)).1) :=
  ⟨rfl, C8_missing_svd_immediate_failure (LoaderFS.mk true false) rfl⟩

/-! ### C6: the pooled fit is invariant under frame duplication -/

lemma flatten_replicate_sum (k : ℕ) (v : List ℚ) :
    ((List.replicate k v).flatten).sum = (k : ℚ) * v.sum := by
  induction k with
  | zero => simp
  | succ n ih =>
    rw [List.replicate_succ, List.flatten_cons, List.sum_append, ih]
    push_cast
    ring

lemma zipWith_flatten_replicate (g : ℚ → ℚ → ℚ) (k : ℕ) (l1 l2 : List ℚ)
    (h : l1.length = l2.length) :
    List.zipWith g ((List.replicate k l1).flatten) ((List.replicate k l2).flatten)
      = (List.replicate k (List.zipWith g l1 l2)).flatten := by
  induction k with
  | zero => simp
  | succ n ih =>
    rw [List.replicate_succ, List.replicate_succ, List.replicate_succ,
      List.flatten_cons, List.flatten_cons, List.flatten_cons,
      List.zipWith_append g l1 _ l2 _ h, ih]

lemma scale_polyfit_slope (N n sx sy sxx sxy : ℚ) (hN : N ≠ 0) :
    (N * n * (N * sxy) - N * sx * (N * sy)) / (N * n * (N * sxx) - N * sx * (N * sx))
      = (n * sxy - sx * sy) / (n * sxx - sx * sx) := by
  have h2 : N * N ≠ 0 := mul_ne_zero hN hN
  rw [show N * n * (N * sxy) - N * sx * (N * sy)
      = N * N * (n * sxy - sx * sy) from by ring,
    show N * n * (N * sxx) - N * sx * (N * sx)
      = N * N * (n * sxx - sx * sx) from by ring,
    mul_div_mul_left _ _ h2]

lemma polyfit1_tile (N : ℕ) (hN : 1 ≤ N) (xs ys : List ℚ)
    (h : xs.length = ys.length) :
    polyfit1 ((List.replicate N xs).flatten) ((List.replicate N ys).flatten)
      = polyfit1 xs ys := by
  have hNq : (N : ℚ) ≠ 0 := by
    have : (0 : ℚ) < N := by exact_mod_cast Nat.lt_of_lt_of_le Nat.zero_lt_one hN
    exact ne_of_gt this
  have hsq : ((List.replicate N xs).flatten).map (fun v => v * v)
      = (List.replicate N (xs.map fun v => v * v)).flatten := by
    rw [List.map_flatten, List.map_replicate]
  have hzip : List.zipWith (fun u v => u * v)
      ((List.replicate N xs).flatten) ((List.replicate N ys).flatten)
      = (List.replicate N (List.zipWith (fun u v => u * v) xs ys)).flatten :=
    zipWith_flatten_replicate _ N xs ys h
  simp only [polyfit1, hsq, hzip, flatten_replicate_sum, flatten_replicate_length]
  push_cast
  have ha : ((N : ℚ) * xs.length * ((N : ℚ) * (List.zipWith (fun u v => u * v) xs ys).sum)
        - (N : ℚ) * xs.sum * ((N : ℚ) * ys.sum))
      / ((N : ℚ) * xs.length * ((N : ℚ) * (xs.map fun v => v * v).sum)
        - (N : ℚ) * xs.sum * ((N : ℚ) * xs.sum))
      = ((xs.length : ℚ) * (List.zipWith (fun u v => u * v) xs ys).sum
          - xs.sum * ys.sum)
      / ((xs.length : ℚ) * (xs.map fun v => v * v).sum - xs.sum * xs.sum) :=
    scale_polyfit_slope (N : ℚ) (xs.length : ℚ) xs.sum ys.sum
      (xs.map fun v => v * v).sum (List.zipWith (fun u v => u * v) xs ys).sum hNq
  rw [ha]
  rw [show ((N : ℚ) * ys.sum
      - ((xs.length : ℚ) * (List.zipWith (fun u v => u * v) xs ys).sum
          - xs.sum * ys.sum)
        / ((xs.length : ℚ) * (xs.map fun v => v * v).sum - xs.sum * xs.sum)
        * ((N : ℚ) * xs.sum))
      = (N : ℚ) * (ys.sum
        - ((xs.length : ℚ) * (List.zipWith (fun u v => u * v) xs ys).sum
            - xs.sum * ys.sum)
          / ((xs.length : ℚ) * (xs.map fun v => v * v).sum - xs.sum * xs.sum)
          * xs.sum) from by ring,
    show (N : ℚ) * (xs.length : ℚ) = (N : ℚ) * (xs.length : ℚ) from rfl,
    mul_div_mul_left _ _ hNq]

lemma npMean_tile (N : ℕ) (hN : 1 ≤ N) (l : List ℚ) :
    npMean ((List.replicate N l).flatten) = npMean l := by
  have hNq : (N : ℚ) ≠ 0 := by
    have : (0 : ℚ) < N := by exact_mod_cast Nat.lt_of_lt_of_le Nat.zero_lt_one hN
    exact ne_of_gt this
  rw [npMean, npMean, flatten_replicate_sum, flatten_replicate_length]
  push_cast
  rw [mul_div_mul_left _ _ hNq]

lemma filter_replicate_true {α : Type} (p : α → Bool) (a : α) (N : ℕ)
    (h : p a = true) : (List.replicate N a).filter p = List.replicate N a := by
  induction N with
  | zero => rfl
  | succ n ih => rw [List.replicate_succ, List.filter_cons, h]; simp [ih]

lemma replicate_headD (N : ℕ) (hN : 1 ≤ N) (f : Frame) :
    (List.replicate N f).headD dummyFrame = f := by
  cases N with
  | zero => exact absurd hN (by omega)
  | succ n => rfl

lemma fitFromSelection_replicate_closed (ids : List ℕ) (rb : List Point)
    (refH refW : ℚ) (f : Frame) (M : ℕ) (hM : 1 ≤ M)
    (hc : f.pose.bodies.candidate.length = 18)
    (hlen : rb.length = ids.length) :
    fitFromSelection ids rb refH refW (List.replicate M f)
      = (if ((selectIdx ids f.pose.bodies.candidate).map Point.y).isEmpty
          then Except.error PoseError.polyfitTypeError
          else Except.ok
            ⟨⟨(polyfit1 ((selectIdx ids f.pose.bodies.candidate).map Point.y)
                  (rb.map Point.y)).1 / (f.height / f.width / refH * refW),
              (polyfit1 ((selectIdx ids f.pose.bodies.candidate).map Point.y)
                  (rb.map Point.y)).1⟩,
             ⟨npMean (List.zipWith (fun rx dx => rx - dx *
                  ((polyfit1 ((selectIdx ids f.pose.bodies.candidate).map Point.y)
                      (rb.map Point.y)).1 / (f.height / f.width / refH * refW)))
                (rb.map Point.x)
                ((selectIdx ids f.pose.bodies.candidate).map Point.x)),
              (polyfit1 ((selectIdx ids f.pose.bodies.candidate).map Point.y)
                  (rb.map Point.y)).2⟩⟩) := by
  have hpred : (f.pose.bodies.candidate.length == 18) = true := by simp [hc]
  simp only [fitFromSelection, List.map_replicate]
  rw [filter_replicate_true (fun p : Pose => p.bodies.candidate.length == 18)
    f.pose M hpred]
  simp only [List.map_replicate]
  have hdbne : (List.replicate M (selectIdx ids f.pose.bodies.candidate)).isEmpty
      = false := by
    cases M with
    | zero => exact absurd hM (by omega)
    | succ n => rfl
  rw [hdbne]
  simp only [Bool.false_eq_true, if_false, List.length_replicate, npTile,
    replicate_headD M hM f]
  by_cases hrowY : (selectIdx ids f.pose.bodies.candidate).map Point.y = []
  · rw [hrowY, show (List.replicate M ([] : List ℚ)).flatten = [] from by simp]
    rfl
  · have hflatne : ((List.replicate M
        ((selectIdx ids f.pose.bodies.candidate).map Point.y)).flatten).isEmpty
        = false := by
      rw [List.isEmpty_eq_false]
      intro h0
      apply hrowY
      have hL := congrArg List.length h0
      rw [flatten_replicate_length] at hL
      simp only [List.length_nil] at hL
      rcases Nat.mul_eq_zero.mp hL with hA | hB
      · exact absurd hA (by omega)
      · exact List.length_eq_zero.mp hB
    have hrowYne : ((selectIdx ids f.pose.bodies.candidate).map Point.y).isEmpty
        = false := List.isEmpty_eq_false.mpr hrowY
    rw [hflatne, hrowYne]
    simp only [Bool.false_eq_true, if_false]
    have hlenY : ((selectIdx ids f.pose.bodies.candidate).map Point.y).length
        = (rb.map Point.y).length := by
      simp [selectIdx, hlen]
    have hlenX : (rb.map Point.x).length
        = ((selectIdx ids f.pose.bodies.candidate).map Point.x).length := by
      simp [selectIdx, hlen]
    rw [polyfit1_tile M hM _ _ hlenY,
      zipWith_flatten_replicate _ M _ _ hlenX, npMean_tile M hM]

/-- C6: fitting against one complete driving frame repeated `N ≥ 1` times
yields exactly the parameters of fitting against that frame once. -/
theorem C6_fit_invariant_under_duplication (refH refW : ℚ) (ref : Pose)
    (f : Frame) (N : ℕ) (hN : 1 ≤ N)
    (hc : f.pose.bodies.candidate.length = 18) :
    computeParams refH refW ref (List.replicate N f)
      = computeParams refH refW ref [f] := by
  rw [computeParams, computeParams,
    show [f] = List.replicate 1 f from rfl,
    fitFromSelection_replicate_closed _ _ refH refW f N hN hc
      (by simp [refBody, selectIdx]),
    fitFromSelection_replicate_closed _ _ refH refW f 1 (by omega) hc
      (by simp [refBody, selectIdx])]

/-- Witness for C6 with the fixture frame repeated three times. -/
theorem C6_fit_invariant_under_duplication_witness :
    1 ≤ 3 ∧ testFrame.pose.bodies.candidate.length = 18 ∧
    computeParams 10 10 testRef (List.replicate 3 testFrame)
      = computeParams 10 10 testRef [testFrame] :=
  ⟨by omega,
   by norm_num [testFrame, testDriveCand],
   C6_fit_invariant_under_duplication 10 10 testRef testFrame 3 (by omega)
    (by norm_num [testFrame, testDriveCand])⟩

/-! ### C5: the sampler's data plumbing -/

lemma mem_tensorVals {t : List Image3} {v : ℚ} :
    v ∈ tensorVals t ↔ ∃ im ∈ t, v ∈ imgVals im := by
  rw [tensorVals, List.mem_flatten]
  constructor
  · rintro ⟨l, hl, hv⟩
    obtain ⟨im, him, rfl⟩ := List.mem_map.mp hl
    exact ⟨im, him, hv⟩
  · rintro ⟨im, him, hv⟩
    exact ⟨imgVals im, List.mem_map_of_mem _ him, hv⟩

lemma imgVals_scale (im : Image3) :
    imgVals (scaleTo11 im) = (imgVals im).map (fun v => v * 2 - 1) := by
  induction im with
  | nil => rfl
  | cons r t ih =>
    simp only [imgVals, scaleTo11, List.map_cons, List.flatten_cons,
      List.map_append] at ih ⊢
    rw [ih]
    congr 1
    rw [List.map_flatten]

lemma mem_imgVals_of_pixAt (im : Image3) (i j k : ℕ) :
    pixAt im i j k ∈ imgVals im ∨ pixAt im i j k = 0 := by
  rcases getD_mem_or im i [] with hrow | hrow
  · rcases getD_mem_or (im.getD i []) j [] with hcell | hcell
    · rcases getD_mem_or ((im.getD i []).getD j []) k 0 with hv | hv
      · left
        rw [imgVals, List.mem_flatten]
        refine ⟨(im.getD i []).flatten, List.mem_map_of_mem _ hrow, ?_⟩
        rw [List.mem_flatten]
        exact ⟨_, hcell, hv⟩
      · right; exact hv
    · right; rw [pixAt, hcell]; rfl
  · right; rw [pixAt, hrow]; rfl

lemma mem_imgVals_permuteHWC (im : Image3) (v : ℚ)
    (h : v ∈ imgVals (permuteHWC_CHW im)) : v ∈ imgVals im ∨ v = 0 := by
  rw [imgVals, List.mem_flatten] at h
  obtain ⟨l, hl, hv⟩ := h
  obtain ⟨row, hrow, rfl⟩ := List.mem_map.mp hl
  simp only [permuteHWC_CHW, List.mem_map, List.mem_range] at hrow
  obtain ⟨c, _, rfl⟩ := hrow
  rw [List.mem_flatten] at hv
  obtain ⟨cell, hcell, hv⟩ := hv
  simp only [List.mem_map, List.mem_range] at hcell
  obtain ⟨i, _, rfl⟩ := hcell
  simp only [List.mem_map, List.mem_range] at hv
  obtain ⟨j, _, rfl⟩ := hv
  exact mem_imgVals_of_pixAt im i j c

lemma mem_imgVals_permuteCHW (im : Image3) (v : ℚ)
    (h : v ∈ imgVals (permuteCHW_HWC im)) : v ∈ imgVals im ∨ v = 0 := by
  rw [imgVals, List.mem_flatten] at h
  obtain ⟨l, hl, hv⟩ := h
  obtain ⟨row, hrow, rfl⟩ := List.mem_map.mp hl
  simp only [permuteCHW_HWC, List.mem_map, List.mem_range] at hrow
  obtain ⟨i, _, rfl⟩ := hrow
  rw [List.mem_flatten] at hv
  obtain ⟨cell, hcell, hv⟩ := hv
  simp only [List.mem_map, List.mem_range] at hcell
  obtain ⟨j, _, rfl⟩ := hcell
  simp only [List.mem_map, List.mem_range] at hv
  obtain ⟨c, _, rfl⟩ := hv
  exact mem_imgVals_of_pixAt im c i j

lemma normalized_range (t : List Image3)
    (ht : ∀ v ∈ tensorVals t, 0 ≤ v ∧ v ≤ 1) :
    ∀ v ∈ tensorVals ((t.map permuteHWC_CHW).map scaleTo11),
      -1 ≤ v ∧ v ≤ 1 := by
  intro v hv
  rw [mem_tensorVals] at hv
  obtain ⟨im2, him2, hvim⟩ := hv
  obtain ⟨im1, him1, rfl⟩ := List.mem_map.mp him2
  obtain ⟨im0, him0, rfl⟩ := List.mem_map.mp him1
  rw [imgVals_scale, List.mem_map] at hvim
  obtain ⟨w, hw, rfl⟩ := hvim
  rcases mem_imgVals_permuteHWC im0 w hw with hmem | h0
  · have hb := ht w (mem_tensorVals.mpr ⟨im0, him0, hmem⟩)
    constructor <;> linarith [hb.1, hb.2]
  · rw [h0]; norm_num

/-- C5: the sampler normalizes both image inputs to channel-first,
`[-1, 1]` layout, calls the opaque pipeline with the fixed tiling
parameters 16 / 6 / 8 and `num_frames` equal to the pose-sequence length,
and returns the pipeline's frames converted back to
`height × width × channel` with nothing prepended: assuming the opaque
pipeline honours its contract (frame count `num_frames`, values in
`[0, 1]`), the output count equals the driving pose count and the output
values stay in `[0, 1]`. -/
theorem C5_sampler_contract (generate : GenArgs → List (List Image3))
    (refImage poseImages : List Image3) (steps : ℕ) (cfgMin cfgMax : ℚ)
    (seed fps : ℕ) (noiseAug : ℚ)
    (hpose : ∀ v ∈ tensorVals poseImages, 0 ≤ v ∧ v ≤ 1)
    (href : ∀ v ∈ tensorVals refImage, 0 ≤ v ∧ v ≤ 1)
    (hglen : ((generate (samplerArgs refImage poseImages steps cfgMin cfgMax
        seed fps noiseAug)).headD []).length = poseImages.length)
    (hgrange : ∀ v ∈ tensorVals ((generate (samplerArgs refImage poseImages
        steps cfgMin cfgMax seed fps noiseAug)).headD []), 0 ≤ v ∧ v ≤ 1) :
    (samplerArgs refImage poseImages steps cfgMin cfgMax seed fps noiseAug).tileSize = 16 ∧
    (samplerArgs refImage poseImages steps cfgMin cfgMax seed fps noiseAug).tileOverlap = 6 ∧
    (samplerArgs refImage poseImages steps cfgMin cfgMax seed fps noiseAug).decodeChunkSize = 8 ∧
    (samplerArgs refImage poseImages steps cfgMin cfgMax seed fps noiseAug).numFrames
      = poseImages.length ∧
    (samplerArgs refImage poseImages steps cfgMin cfgMax seed fps noiseAug).refImage
      = (refImage.map permuteHWC_CHW).map scaleTo11 ∧
    (samplerArgs refImage poseImages steps cfgMin cfgMax seed fps noiseAug).imagePose
      = (poseImages.map permuteHWC_CHW).map scaleTo11 ∧
    (∀ v ∈ tensorVals (samplerArgs refImage poseImages steps cfgMin cfgMax
        seed fps noiseAug).refImage, -1 ≤ v ∧ v ≤ 1) ∧
    (∀ v ∈ tensorVals (samplerArgs refImage poseImages steps cfgMin cfgMax
        seed fps noiseAug).imagePose, -1 ≤ v ∧ v ≤ 1) ∧
    samplerProcess generate refImage poseImages steps cfgMin cfgMax seed fps noiseAug
      = ((generate (samplerArgs refImage poseImages steps cfgMin cfgMax
          seed fps noiseAug)).headD []).map permuteCHW_HWC ∧
    (samplerProcess generate refImage poseImages steps cfgMin cfgMax seed fps
        noiseAug).length = poseImages.length ∧
    (∀ v ∈ tensorVals (samplerProcess generate refImage poseImages steps cfgMin
        cfgMax seed fps noiseAug), 0 ≤ v ∧ v ≤ 1) := by
  refine ⟨rfl, rfl, rfl, rfl, rfl, rfl,
    normalized_range refImage href, normalized_range poseImages hpose,
    rfl, ?_, ?_⟩
  · rw [samplerProcess, List.length_map, hglen]
  · intro v hv
    rw [samplerProcess, mem_tensorVals] at hv
    obtain ⟨im2, him2, hvim⟩ := hv
    obtain ⟨im0, him0, rfl⟩ := List.mem_map.mp him2
    rcases mem_imgVals_permuteCHW im0 v hvim with hmem | h0
    · exact hgrange v (mem_tensorVals.mpr ⟨im0, him0, hmem⟩)
    · rw [h0]; norm_num

/-- Witness for C5 with a concrete one-pixel pipeline double. -/
theorem C5_sampler_contract_witness :
    (∀ v ∈ tensorVals testPoseImages, 0 ≤ v ∧ v ≤ 1) ∧
    (∀ v ∈ tensorVals testRefImage, 0 ≤ v ∧ v ≤ 1) ∧
    ((testGenerate (samplerArgs testRefImage testPoseImages 25 2 2
        0 15 0)).headD []).length = testPoseImages.length ∧
    (∀ v ∈ tensorVals ((testGenerate (samplerArgs testRefImage testPoseImages
        25 2 2 0 15 0)).headD []), 0 ≤ v ∧ v ≤ 1) ∧
    ((samplerArgs testRefImage testPoseImages 25 2 2 0 15 0).tileSize = 16 ∧
    (samplerArgs testRefImage testPoseImages 25 2 2 0 15 0).tileOverlap = 6 ∧
    (samplerArgs testRefImage testPoseImages 25 2 2 0 15 0).decodeChunkSize = 8 ∧
    (samplerArgs testRefImage testPoseImages 25 2 2 0 15 0).numFrames
      = testPoseImages.length ∧
    (samplerArgs testRefImage testPoseImages 25 2 2 0 15 0).refImage
      = (testRefImage.map permuteHWC_CHW).map scaleTo11 ∧
    (samplerArgs testRefImage testPoseImages 25 2 2 0 15 0).imagePose
      = (testPoseImages.map permuteHWC_CHW).map scaleTo11 ∧
    (∀ v ∈ tensorVals (samplerArgs testRefImage testPoseImages 25 2 2
        0 15 0).refImage, -1 ≤ v ∧ v ≤ 1) ∧
    (∀ v ∈ tensorVals (samplerArgs testRefImage testPoseImages 25 2 2
        0 15 0).imagePose, -1 ≤ v ∧ v ≤ 1) ∧
    samplerProcess testGenerate testRefImage testPoseImages 25 2 2 0 15 0
      = ((testGenerate (samplerArgs testRefImage testPoseImages 25 2 2
          0 15 0)).headD []).map permuteCHW_HWC ∧
    (samplerProcess testGenerate testRefImage testPoseImages 25 2 2 0 15
        0).length = testPoseImages.length ∧
    (∀ v ∈ tensorVals (samplerProcess testGenerate testRefImage testPoseImages
        25 2 2 0 15 0), 0 ≤ v ∧ v ≤ 1)) :=
  ⟨by
    intro v hv
    simp [tensorVals, imgVals, testPoseImages] at hv
    subst hv; norm_num,
   by
    intro v hv
    simp [tensorVals, imgVals, testRefImage] at hv
    subst hv; norm_num,
   by simp [testGenerate, samplerArgs, testPoseImages],
   by
    intro v hv
    simp [testGenerate, samplerArgs, testPoseImages, tensorVals, imgVals,
      List.replicate] at hv
    subst hv; norm_num,
   C5_sampler_contract testGenerate testRefImage testPoseImages 25 2 2 0 15 0
    (by
      intro v hv
      simp [tensorVals, imgVals, testPoseImages] at hv
      subst hv; norm_num)
    (by
      intro v hv
      simp [tensorVals, imgVals, testRefImage] at hv
      subst hv; norm_num)
    (by simp [testGenerate, samplerArgs, testPoseImages])
    (by
      intro v hv
      simp [testGenerate, samplerArgs, testPoseImages, tensorVals, imgVals,
        List.replicate] at hv
      subst hv; norm_num)⟩

end MimicMotion
